import Mathlib

set_option maxRecDepth 8192

/-!
Verification development for the chat-session backend (`backend/` sources).

The embedding below translates the data model and the operations of the
backend into Lean:

* `database.py` — the `Session` and `Message` rows become `SessionRow` and
  `Msg`; timestamps are abstracted as `Nat` clock readings.
* `db_operations.py` — `DatabaseManager.get_session`, `delete_session`,
  `add_message`, `get_session_messages`, `count_session_messages` become
  functions on an explicit `DBState` (the two relations).  Each SQL
  statement is modelled by its effect on the relation lists; `ORDER BY
  timestamp DESC` is modelled by an insertion sort on the timestamp key
  (SQL leaves the relative order of equal keys unspecified, so every
  theorem that depends on ordering assumes the spec's invariant that
  timestamps within a session are strictly increasing).
* `chat_service.py` — the `OrderedDict` LRU agent cache becomes an
  association list ordered least-recently-used first; agent construction
  is abstracted by a fresh counter.  The completion backend is an external
  collaborator, so `stream_chat_with_context` and `generate_title` are
  parameterised by the outcome of the completion call.
* `main.py` — the SSE generator `event_generator_with_session` becomes a
  function from the database state and the (would-be) stream outcome to
  the emitted event list and the post-state.
-/

/-- A row of the `messages` relation (`database.py`, class `Message`).
`timestamp` is the `datetime.utcnow` column default, abstracted as a `Nat`
clock reading taken when the pending INSERT is flushed. The `id` column
(a fresh uuid) plays no role in any claim and is omitted. -/
structure Msg where
  session_id : String
  role : String
  content : String
  timestamp : Nat
deriving Repr, DecidableEq

/-- A row of the `sessions` relation (`database.py`, class `Session`). -/
structure SessionRow where
  id : String
  title : String
  created_at : Nat
  updated_at : Nat
deriving Repr, DecidableEq

/-- The persisted state: the two relations of the store, each kept in
insertion order. -/
structure DBState where
  sessions : List SessionRow
  messages : List Msg
deriving Repr, DecidableEq

/-- `DatabaseManager.get_session` (`db_operations.py:36`): `SELECT` of the
session row by primary key; `None` when absent. -/
def get_session (st : DBState) (sid : String) : Option SessionRow :=
  st.sessions.find? (fun s => s.id == sid)

/-- `DatabaseManager.delete_session` (`db_operations.py:86`): executes the
Core statement `delete(Session).where(Session.id == session_id)` and
returns `rowcount > 0`.  A Core bulk DELETE touches only the `sessions`
relation: the ORM `cascade="all, delete-orphan"` option of
`Session.messages` applies only to `session.delete(obj)` unit-of-work
deletes, the schema's `ForeignKey('sessions.id')` carries no `ON DELETE
CASCADE`, and SQLite foreign-key enforcement is off by default (nothing in
`database.py` issues `PRAGMA foreign_keys=ON`).  Hence the `messages`
relation is left unchanged. -/
def delete_session (st : DBState) (sid : String) : Bool × DBState :=
  (st.sessions.any (fun s => s.id == sid),
   { st with sessions := st.sessions.filter (fun s => !(s.id == sid)) })

/-- The session-table UPDATE issued inside `add_message`
(`db_operations.py:125-129`): sets `updated_at` of the row with the given
id to the supplied clock reading. -/
def update_session_updated_at (ss : List SessionRow) (sid : String) (t : Nat) :
    List SessionRow :=
  ss.map (fun s => if s.id = sid then { s with updated_at := t } else s)

/-- `DatabaseManager.add_message` (`db_operations.py:101`): stages the new
message row, executes the UPDATE bumping the session's `updated_at`, and
commits — one transaction, so the post-state carries both effects
together.  Two distinct clock readings occur: `t_upd` is the
`datetime.utcnow()` evaluated in Python while *building* the UPDATE's
`values(...)` (line 128), and `t_msg` is the `timestamp` column default
evaluated later, when the staged INSERT is flushed (autoflush runs when
the UPDATE is executed).  In every real execution `t_upd ≤ t_msg`; the
two are not the same reading. -/
def add_message (st : DBState) (sid role content : String) (t_upd t_msg : Nat) :
    Msg × DBState :=
  let m : Msg := ⟨sid, role, content, t_msg⟩
  (m, { sessions := update_session_updated_at st.sessions sid t_upd,
        messages := st.messages ++ [m] })

/-- One step of the `ORDER BY timestamp DESC` model: insert a row into a
descending-sorted list. -/
def insert_desc (m : Msg) : List Msg → List Msg
  | [] => [m]
  | b :: l => if b.timestamp ≤ m.timestamp then m :: b :: l else b :: insert_desc m l

/-- `ORDER BY timestamp DESC`, modelled as an insertion sort on the
timestamp key.  The relative order of rows with equal timestamps is not
specified by SQL; theorems that depend on the order therefore assume
strictly increasing timestamps, which makes the result independent of the
tie-breaking choice. -/
def sort_desc : List Msg → List Msg
  | [] => []
  | a :: l => insert_desc a (sort_desc l)

/-- `DatabaseManager.get_session_messages` (`db_operations.py:135`):
`SELECT` the session's messages newest first with `LIMIT limit`, then
reverse the fetched list in Python so the result is oldest first. -/
def get_session_messages (st : DBState) (sid : String) (limit : Nat) : List Msg :=
  (((sort_desc (st.messages.filter (fun m => m.session_id == sid))).take limit)).reverse

/-- `DatabaseManager.count_session_messages` (`db_operations.py:246`). -/
def count_session_messages (st : DBState) (sid : String) : Nat :=
  (st.messages.filter (fun m => m.session_id == sid)).length

/-- The most recently appended message of a session: the last row of the
`messages` relation (which `add_message` grows at the end) belonging to
the session. -/
def last_appended (st : DBState) (sid : String) : Option Msg :=
  (st.messages.filter (fun m => m.session_id == sid)).getLast?

/-- The Session-Agent Cache (`chat_service.py`): `self.agents` is an
`OrderedDict[str, AssistantAgent]` holding entries least-recently-used
first, `self.max_agents` the capacity.  Agent construction
(`AssistantAgent(...)`) is abstracted by the fresh counter `next_agent`:
each newly built handle gets the current counter value, so distinct
constructions yield distinct handles. -/
structure AgentCache where
  entries : List (String × Nat)
  max_agents : Nat
  next_agent : Nat
deriving Repr, DecidableEq

/-- Key lookup in the ordered mapping (`session_id in self.agents` /
`self.agents[session_id]`). -/
def lookup_agent : List (String × Nat) → String → Option Nat
  | [], _ => none
  | (k, v) :: es, sid => if k = sid then some v else lookup_agent es sid

/-- Removal of the entry with the given key (`self.agents.pop(session_id)`;
an `OrderedDict` holds each key once, so removing the first occurrence is
removing the only one). -/
def erase_key : List (String × Nat) → String → List (String × Nat)
  | [], _ => []
  | (k, v) :: es, sid => if k = sid then es else (k, v) :: erase_key es sid

/-- `ChatService._get_or_create_agent` (`chat_service.py:79`), the cache
transition (the `initialized` guard at its top concerns the surrounding
service and raises before the cache is touched; the claims are about the
cache state evolution, so the guard is ambient here).  If the key exists:
`move_to_end` and return the stored handle.  Otherwise: build a fresh
handle, insert it at the most-recently-used end, and if the size now
exceeds `max_agents`, pop the first (least-recently-used) entry. -/
def get_or_create_agent (c : AgentCache) (sid : String) : Nat × AgentCache :=
  match lookup_agent c.entries sid with
  | some a => (a, { c with entries := erase_key c.entries sid ++ [(sid, a)] })
  | none =>
      let a := c.next_agent
      let es := c.entries ++ [(sid, a)]
      (a, { c with
              entries := if c.max_agents < es.length then es.tail else es,
              next_agent := a + 1 })

/-- `ChatService.remove_agent` (`chat_service.py:119`): pop the entry when
the key is present, otherwise do nothing. -/
def remove_agent (c : AgentCache) (sid : String) : AgentCache :=
  if (lookup_agent c.entries sid).isSome then
    { c with entries := erase_key c.entries sid }
  else c

/-- Folding a sequence of `_get_or_create_agent` calls over the cache
(discarding the returned handles). -/
def run_get_or_create (c : AgentCache) (sids : List String) : AgentCache :=
  sids.foldl (fun c s => (get_or_create_agent c s).2) c

/-- A freshly constructed `ChatService`'s cache: `self.agents =
OrderedDict()` with capacity `n`. -/
def empty_cache (n : Nat) : AgentCache :=
  ⟨[], n, 0⟩

/-- The `OrderedDict` representation invariant: each key occurs once. -/
def KeysNodup (c : AgentCache) : Prop :=
  (c.entries.map Prod.fst).Nodup

/-- The fresh-counter representation invariant: every stored handle was
produced by an earlier counter value. -/
def AgentsFresh (c : AgentCache) : Prop :=
  ∀ p ∈ c.entries, p.2 < c.next_agent

/-- One event of the completion backend's stream, as inspected by
`stream_chat_with_context` (`chat_service.py:298-301`): `is_chunk_event`
models `isinstance(chunk, ModelClientStreamingChunkEvent)`, `source` and
`content` the event attributes of the same names. -/
structure StreamEvent where
  is_chunk_event : Bool
  source : String
  content : String
deriving Repr, DecidableEq

/-- The outcome of `agent.run_stream(...)`: the backend either produces a
sequence of events and exhausts, or produces a prefix and then raises. -/
inductive StreamOutcome where
  | ends (events : List StreamEvent)
  | fails (events : List StreamEvent) (error : String)
deriving Repr, DecidableEq

/-- Python's `str.startswith`, modelled at the code-point level: Python
strings are sequences of code points and `s.startswith(p)` asks whether
`p`'s code points are a leading segment of `s`'s. -/
def starts_with (s p : String) : Bool :=
  p.data.isPrefixOf s.data

/-- The fragment filter of the streaming loop (`chat_service.py:298-301`):
keep chunk events whose `source` starts with `"assistant"` and yield their
`content`. -/
def assistant_chunks (events : List StreamEvent) : List String :=
  (events.filter (fun e => e.is_chunk_event && starts_with e.source "assistant")).map
    (fun e => e.content)

/-- The prompt construction shared by `chat_with_context`
(`chat_service.py:230-244`) and `stream_chat_with_context`
(`chat_service.py:283-292`): with non-empty history, a serialized
`role: content` transcript joined by blank lines, wrapped in the fixed
instruction text, followed by the new user text; with empty history, the
user text verbatim. -/
def build_context_prompt (history : List Msg) (message : String) : String :=
  match history with
  | [] => message
  | _ :: _ =>
      "以下是之前的对话历史：\n\n" ++
        String.intercalate "\n\n" (history.map (fun m => m.role ++ ": " ++ m.content)) ++
        "\n\n现在用户说：" ++ message ++ "\n\n请基于上下文回复用户。"

/-- `ChatService.stream_chat_with_context` (`chat_service.py:255-308`) as a
function of the service's `initialized` flag and the stream outcome,
returning the sequence of fragments the generator yields (`Except.error`
models the generator raising before its `try` block).  When the underlying
stream raises after a prefix of events, the `except` arm yields the
already-produced assistant fragments followed by exactly one in-band
apology fragment, and the generator then ends normally — the exception is
not re-raised. -/
def stream_chat_with_context (initialized : Bool) (outcome : StreamOutcome) :
    Except String (List String) :=
  if initialized then
    Except.ok (match outcome with
      | StreamOutcome.ends evs => assistant_chunks evs
      | StreamOutcome.fails evs err => assistant_chunks evs ++ ["抱歉，发生了错误: " ++ err])
  else Except.error "聊天服务未初始化"

/-- The call `chat_service.stream_chat_with_context(message, history)` at
`main.py:443`.  The method's signature (`chat_service.py:255-260`)
declares three required positional parameters `(session_id, message,
history)`; the call site supplies only two, so Python binds `message` to
`session_id`, `history` to `message`, leaves `history` unbound, and raises
`TypeError` at generator-creation time — before any completion call and
before any fragment is produced. -/
def call_stream_chat_with_context_2args (_message : String) (_history : List Msg) :
    Except String (List String) :=
  Except.error "stream_chat_with_context() missing 1 required positional argument: history"

/-- One server-sent event written by the generators in `main.py`:
`content s` is `data: {"content": s, "role": "assistant"}`, `error s` is
`data: {"error": s}`, and `done` is `data: [DONE]`. -/
inductive SSEEvent where
  | content (text : String)
  | error (text : String)
  | done
deriving Repr, DecidableEq

/-- `event_generator_with_session` (`main.py:411-462`): check the service,
validate the session, fetch the 20 most recent messages, persist the user
message, then iterate `chat_service.stream_chat_with_context(message,
history)` — relaying each chunk as a content event while accumulating it —
and on exhaustion persist the accumulated text as one assistant message
and emit the `[DONE]` marker; any exception inside the `try` is caught and
emitted as a single error event.  `t_upd1/t_msg1` and `t_upd2/t_msg2` are
the clock readings of the two `add_message` calls; `outcome` is the stream
the completion backend would produce. -/
def event_generator_with_session
    (service_initialized : Bool) (st : DBState) (session_id message : String)
    (t_upd1 t_msg1 t_upd2 t_msg2 : Nat) (_outcome : StreamOutcome) :
    List SSEEvent × DBState :=
  if service_initialized then
    match get_session st session_id with
    | none => ([SSEEvent.error "会话不存在"], st)
    | some _ =>
        let history := get_session_messages st session_id 20
        let st1 := (add_message st session_id "user" message t_upd1 t_msg1).2
        match call_stream_chat_with_context_2args message history with
        | Except.error e => ([SSEEvent.error ("流式聊天错误: " ++ e)], st1)
        | Except.ok chunks =>
            let accumulated := String.join chunks
            let st2 := (add_message st1 session_id "assistant" accumulated t_upd2 t_msg2).2
            ((chunks.map SSEEvent.content) ++ [SSEEvent.done], st2)
  else ([SSEEvent.error "聊天服务未初始化"], st)

/-- The post-processing of a successfully generated title
(`chat_service.py:349-360`): strip, remove double and single quotes,
replace newlines by spaces, strip again, truncate to 30 characters with an
ellipsis marker, and fall back to the fixed placeholder when empty. -/
def postprocess_title (raw : String) : String :=
  let t1 := ((raw.trim.replace "\"" "").replace "\x27" "").replace "\n" " "
  let t2 := t1.trim
  let t3 := if t2.length > 30 then t2.take 30 ++ "..." else t2
  if t3 = "" then "新对话" else t3

/-- `ChatService.generate_title` (`chat_service.py:310-368`) as a function
of the `initialized` flag and the outcome of the completion call
(`temp_agent.run`).  On completion failure the `except` arm returns the
fallback `first_message[:20] + "..." if len(first_message) > 20 else
first_message` — it never re-raises. -/
def generate_title (initialized : Bool) (completion : Except String String)
    (first_message : String) : Except String String :=
  if initialized then
    match completion with
    | Except.ok raw => Except.ok (postprocess_title raw)
    | Except.error _ =>
        Except.ok (if first_message.length > 20 then first_message.take 20 ++ "..." else first_message)
  else Except.error "聊天服务未初始化"

/-- The `DELETE /api/sessions/{session_id}` handler (`main.py:299-312`):
it calls only `db_manager.delete_session`; no statement in the handler —
nor anywhere else in the repository — invokes
`chat_service.remove_agent`, so the agent cache is passed through
untouched. -/
def delete_session_endpoint (st : DBState) (cache : AgentCache) (sid : String) :
    Bool × DBState × AgentCache :=
  let r := delete_session st sid
  (r.1, r.2, cache)

/-- One `appendMessage` call of a sequence: the role and content of the
message together with the two clock readings of `add_message`. -/
structure AppendCall where
  role : String
  content : String
  t_upd : Nat
  t_msg : Nat
deriving Repr, DecidableEq

/-- Folding a sequence of `add_message` calls on one session over the
store. -/
def run_add_messages (st : DBState) (sid : String) (calls : List AppendCall) : DBState :=
  calls.foldl (fun s c => (add_message s sid c.role c.content c.t_upd c.t_msg).2) st

/-! ### Generic helper lemmas -/

theorem string_append_assoc (a b c : String) : a ++ b ++ c = a ++ (b ++ c) := by
  cases a; cases b; cases c
  exact congrArg String.mk (List.append_assoc _ _ _)

theorem reverse_take_reverse {α : Type} (l : List α) (k : Nat) :
    (l.reverse.take k).reverse = l.drop (l.length - k) := by
  induction l generalizing k with
  | nil => simp
  | cons a t ih =>
    rw [List.reverse_cons, List.take_append_eq_append_take, List.reverse_append, ih]
    by_cases hk : k ≤ t.length
    · have h1 : k - t.length = 0 := by omega
      have h2 : t.length + 1 - k = (t.length - k) + 1 := by omega
      simp [h1, h2]
    · have h1 : ([a] : List α).length ≤ k - t.reverse.length := by simp; omega
      have h2 : t.length - k = 0 := by omega
      have h3 : (a :: t).length - k = 0 := by simp; omega
      rw [List.take_of_length_le h1, h2, h3]
      simp

theorem getLast?_drop_of_lt {α : Type} (l : List α) (n : Nat) (h : n < l.length) :
    (l.drop n).getLast? = l.getLast? := by
  induction l generalizing n with
  | nil => simp at h
  | cons a t ih =>
    cases n with
    | zero => simp
    | succ m =>
      have hm : m < t.length := by simpa using h
      rw [List.drop_succ_cons, ih m hm]
      cases t with
      | nil => simp at hm
      | cons b t2 => simp

/-! ### Lemmas about the ORDER BY model -/

theorem insert_desc_append (m : Msg) (l : List Msg)
    (h : ∀ b ∈ l, m.timestamp < b.timestamp) : insert_desc m l = l ++ [m] := by
  induction l with
  | nil => rfl
  | cons b t ih =>
    have hb := h b (by simp)
    rw [insert_desc, if_neg (by omega), ih (fun x hx => h x (by simp [hx]))]
    simp

theorem sort_desc_eq_reverse (l : List Msg)
    (h : l.Pairwise (fun a b => a.timestamp < b.timestamp)) :
    sort_desc l = l.reverse := by
  induction l with
  | nil => rfl
  | cons a t ih =>
    rw [sort_desc, ih (List.Pairwise.of_cons h), insert_desc_append]
    · simp
    · intro b hb
      exact (List.pairwise_cons.mp h).1 b (by simpa using hb)

/-! ### Lemmas about the store operations -/

theorem find?_update_session (ss : List SessionRow) (sid : String) (t : Nat) :
    (update_session_updated_at ss sid t).find? (fun s => s.id == sid) =
      (ss.find? (fun s => s.id == sid)).map (fun s => { s with updated_at := t }) := by
  induction ss with
  | nil => rfl
  | cons s ss ih =>
    simp only [update_session_updated_at, List.map_cons]
    by_cases h : s.id = sid
    · rw [if_pos h]
      rw [List.find?_cons_of_pos _ (by simp [h]), List.find?_cons_of_pos _ (by simp [h])]
      simp
    · rw [if_neg h]
      rw [List.find?_cons_of_neg _ (by simp [h]), List.find?_cons_of_neg _ (by simp [h])]
      exact ih

theorem get_session_add_message (st : DBState) (sid role content : String) (tu tm : Nat) :
    get_session (add_message st sid role content tu tm).2 sid =
      (get_session st sid).map (fun s => { s with updated_at := tu }) := by
  simp [get_session, add_message, find?_update_session]

theorem isSome_get_session_add_message (st : DBState) (sid role content : String)
    (tu tm : Nat) (h : (get_session st sid).isSome) :
    (get_session (add_message st sid role content tu tm).2 sid).isSome := by
  rw [get_session_add_message]
  simpa using h

theorem run_add_messages_snoc (st : DBState) (sid : String) (l : List AppendCall)
    (c : AppendCall) :
    run_add_messages st sid (l ++ [c]) =
      (add_message (run_add_messages st sid l) sid c.role c.content c.t_upd c.t_msg).2 := by
  simp [run_add_messages, List.foldl_append]

theorem run_add_messages_cons (st : DBState) (sid : String) (c : AppendCall)
    (cs : List AppendCall) :
    run_add_messages st sid (c :: cs) =
      run_add_messages (add_message st sid c.role c.content c.t_upd c.t_msg).2 sid cs := by
  simp [run_add_messages]

theorem run_add_messages_isSome (st : DBState) (sid : String) (calls : List AppendCall)
    (h : (get_session st sid).isSome) :
    (get_session (run_add_messages st sid calls) sid).isSome := by
  induction calls generalizing st with
  | nil => simpa [run_add_messages] using h
  | cons c cs ih =>
    rw [run_add_messages_cons]
    exact ih _ (isSome_get_session_add_message _ _ _ _ _ _ h)

theorem run_add_messages_messages (st : DBState) (sid : String) (calls : List AppendCall) :
    (run_add_messages st sid calls).messages =
      st.messages ++ calls.map (fun c => (⟨sid, c.role, c.content, c.t_msg⟩ : Msg)) := by
  induction calls generalizing st with
  | nil => simp [run_add_messages]
  | cons c cs ih =>
    rw [run_add_messages_cons, ih]
    simp [add_message]

/-! ### Lemmas about the Session-Agent Cache -/

theorem lookup_agent_eq_none (es : List (String × Nat)) (sid : String)
    (h : sid ∉ es.map Prod.fst) : lookup_agent es sid = none := by
  induction es with
  | nil => rfl
  | cons p es ih =>
    obtain ⟨k, v⟩ := p
    simp only [List.map_cons, List.mem_cons, not_or] at h
    rw [lookup_agent, if_neg (fun hk => h.1 hk.symm)]
    exact ih h.2

theorem length_erase_key (es : List (String × Nat)) (sid : String) (a : Nat)
    (h : lookup_agent es sid = some a) :
    (erase_key es sid).length + 1 = es.length := by
  induction es with
  | nil => simp [lookup_agent] at h
  | cons p es ih =>
    obtain ⟨k, v⟩ := p
    by_cases hk : k = sid
    · rw [erase_key, if_pos hk]
      simp
    · rw [lookup_agent, if_neg hk] at h
      rw [erase_key, if_neg hk]
      simpa using ih h

theorem erase_key_append_perm (es : List (String × Nat)) (sid : String) (a : Nat)
    (h : lookup_agent es sid = some a) :
    (erase_key es sid ++ [(sid, a)]).Perm es := by
  induction es with
  | nil => simp [lookup_agent] at h
  | cons p es ih =>
    obtain ⟨k, v⟩ := p
    by_cases hk : k = sid
    · rw [lookup_agent, if_pos hk] at h
      rw [erase_key, if_pos hk]
      have : ((sid, a) : String × Nat) = (k, v) := by
        rw [hk]
        injection h with h2
        rw [h2]
      rw [← this]
      exact List.perm_append_singleton _ _
    · rw [lookup_agent, if_neg hk] at h
      rw [erase_key, if_neg hk]
      exact List.Perm.cons _ (ih h)

theorem filter_ne_of_not_mem (es : List (String × Nat)) (sid : String)
    (h : sid ∉ es.map Prod.fst) : es.filter (fun p => p.1 != sid) = es := by
  rw [List.filter_eq_self]
  intro p hp
  simp only [bne_iff_ne, ne_eq]
  intro heq
  exact h (List.mem_map.mpr ⟨p, hp, heq⟩)

theorem erase_key_eq_filter (es : List (String × Nat)) (sid : String)
    (h : (es.map Prod.fst).Nodup) :
    erase_key es sid = es.filter (fun p => p.1 != sid) := by
  induction es with
  | nil => rfl
  | cons p es ih =>
    obtain ⟨k, v⟩ := p
    simp only [List.map_cons, List.nodup_cons] at h
    by_cases hk : k = sid
    · subst hk
      rw [erase_key, if_pos rfl, List.filter_cons]
      have hcond : (((k, v) : String × Nat).1 != k) = false := by simp
      rw [hcond]
      simp only [Bool.false_eq_true, if_false]
      exact (filter_ne_of_not_mem es k h.1).symm
    · rw [erase_key, if_neg hk, List.filter_cons, if_pos (by simpa using hk), ih h.2]

theorem get_or_create_agent_max (c : AgentCache) (sid : String) :
    (get_or_create_agent c sid).2.max_agents = c.max_agents := by
  rw [get_or_create_agent]
  cases lookup_agent c.entries sid <;> rfl

theorem run_get_or_create_snoc (c : AgentCache) (l : List String) (s : String) :
    run_get_or_create c (l ++ [s]) = (get_or_create_agent (run_get_or_create c l) s).2 := by
  simp [run_get_or_create, List.foldl_append]

theorem run_get_or_create_max (c : AgentCache) (l : List String) :
    (run_get_or_create c l).max_agents = c.max_agents := by
  induction l generalizing c with
  | nil => rfl
  | cons s l ih =>
    show (run_get_or_create ((get_or_create_agent c s).2) l).max_agents = c.max_agents
    rw [ih, get_or_create_agent_max]

theorem run_get_or_create_keys (n : Nat) (sids : List String) (h : sids.Nodup) :
    (run_get_or_create (empty_cache n) sids).entries.map Prod.fst =
      sids.drop (sids.length - n) := by
  induction sids using List.reverseRecOn with
  | nil => simp [run_get_or_create, empty_cache]
  | append_singleton l s ih =>
    rw [List.nodup_append] at h
    obtain ⟨hl, _, hdisj⟩ := h
    have hs : s ∉ l := fun hmem => hdisj hmem (by simp)
    have ihl := ih hl
    rw [run_get_or_create_snoc]
    have hnone : lookup_agent (run_get_or_create (empty_cache n) l).entries s = none := by
      apply lookup_agent_eq_none
      rw [ihl]
      intro hmem
      exact hs (List.drop_subset _ _ hmem)
    have hmax : (run_get_or_create (empty_cache n) l).max_agents = n :=
      run_get_or_create_max _ _
    have hlen : (run_get_or_create (empty_cache n) l).entries.length =
        l.length - (l.length - n) := by
      have := congrArg List.length ihl
      simpa using this
    rw [get_or_create_agent, hnone]
    simp only [hmax]
    by_cases hnl : n ≤ l.length
    · rw [if_pos (by simp [hlen]; omega)]
      have htail : ((run_get_or_create (empty_cache n) l).entries ++
          [(s, (run_get_or_create (empty_cache n) l).next_agent)]).tail.map Prod.fst =
          ((l.drop (l.length - n)) ++ [s]).drop 1 := by
        rw [← List.drop_one, List.map_drop, List.map_append, ihl]
        simp
      rw [htail]
      have hsplit : (l ++ [s]).drop (l.length - n) = l.drop (l.length - n) ++ [s] :=
        List.drop_append_of_le_length (by omega)
      rw [← hsplit, List.drop_drop]
      congr 1
      simp
      omega
    · rw [if_neg (by simp [hlen]; omega)]
      have h0 : l.length - n = 0 := by omega
      have h1 : l.length + 1 - n = 0 := by omega
      simp [List.map_append, h0, h1, ihl]

/-! ### Claim theorems -/

/-- C1 (evaluation at the failing input): on the streaming chat path for an
existing session, the claim expects the fragments "Hel", "lo" to be
relayed in order and one assistant message "Hello" to be persisted.  The
code instead calls `stream_chat_with_context(message, history)` with the
`session_id` argument missing (`main.py:443`), so generator creation
raises `TypeError`, the `except` arm emits a single error event, and the
post-state contains the user message but no assistant message at all —
for a stream that would have produced exactly the fragments of the
claim's example. -/
theorem c1_streaming_arity_eval :
    event_generator_with_session true ⟨[⟨"s1", "t", 0, 0⟩], []⟩ "s1" "hi" 1 2 3 4
        (StreamOutcome.ends [⟨true, "assistant", "Hel"⟩, ⟨true, "assistant", "lo"⟩]) =
      ([SSEEvent.error ("流式聊天错误: " ++
          "stream_chat_with_context() missing 1 required positional argument: history")],
        ⟨[⟨"s1", "t", 0, 1⟩], [⟨"s1", "user", "hi", 2⟩]⟩) ∧
    (event_generator_with_session true ⟨[⟨"s1", "t", 0, 0⟩], []⟩ "s1" "hi" 1 2 3 4
        (StreamOutcome.ends [⟨true, "assistant", "Hel"⟩, ⟨true, "assistant", "lo"⟩])).2.messages.filter
        (fun m => m.role == "assistant") = [] := by
  decide

/-- C2 (evaluation at the failing input): the claim describes the handling
of a completion failure during streaming chat.  First conjunct: the cited
handler (`chat_service.py:305-308`) turns a stream that fails after
producing "Hel" into the in-band fragment sequence
`["Hel", "抱歉，发生了错误: boom"]` returned as a *normal* exhausted
stream — the partial fragment and the apology are indistinguishable from
ordinary content for the caller, which would accumulate and persist them.
Second conjunct: from the endpoint (`main.py:443`) the completion call is
unreachable — the arity `TypeError` fires first, so even a failing stream
produces the same single error event and no assistant message. -/
theorem c2_streaming_failure_eval :
    stream_chat_with_context true
        (StreamOutcome.fails [⟨true, "assistant", "Hel"⟩] "boom") =
      Except.ok ["Hel", "抱歉，发生了错误: boom"] ∧
    event_generator_with_session true ⟨[⟨"s1", "t", 0, 0⟩], []⟩ "s1" "hi" 1 2 3 4
        (StreamOutcome.fails [⟨true, "assistant", "Hel"⟩] "boom") =
      ([SSEEvent.error ("流式聊天错误: " ++
          "stream_chat_with_context() missing 1 required positional argument: history")],
        ⟨[⟨"s1", "t", 0, 1⟩], [⟨"s1", "user", "hi", 2⟩]⟩) := by
  exact ⟨rfl, by decide⟩

/-- C6 (evaluation at the failing input): deleting session "s1", which owns
K = 2 messages, returns success and makes a subsequent `get_session`
return `NotFound`, but removes 0 rows from the `messages` relation — both
messages are still counted afterwards, contradicting the claim (and the
function's own docstring) that all K owned messages are removed.  Absent
ids correctly report failure. -/
theorem c6_delete_session_eval :
    (delete_session ⟨[⟨"s1", "t", 0, 0⟩],
        [⟨"s1", "user", "A", 1⟩, ⟨"s1", "assistant", "B", 2⟩]⟩ "s1").1 = true ∧
    get_session (delete_session ⟨[⟨"s1", "t", 0, 0⟩],
        [⟨"s1", "user", "A", 1⟩, ⟨"s1", "assistant", "B", 2⟩]⟩ "s1").2 "s1" = none ∧
    count_session_messages (delete_session ⟨[⟨"s1", "t", 0, 0⟩],
        [⟨"s1", "user", "A", 1⟩, ⟨"s1", "assistant", "B", 2⟩]⟩ "s1").2 "s1" = 2 ∧
    (delete_session ⟨[⟨"s1", "t", 0, 0⟩], []⟩ "missing").1 = false := by
  decide

/-- C7 (evaluation at the failing input): after the delete endpoint removes
session "s1" from the store, the Session-Agent Cache is returned exactly
as it was passed in — the handler never invokes `remove_agent` (no call
site exists in the repository), so the deleted session's handle is still
resident and still served by a lookup, contradicting the claim. -/
theorem c7_delete_keeps_stale_agent :
    (delete_session_endpoint ⟨[⟨"s1", "t", 0, 0⟩], []⟩ ⟨[("s1", 0)], 50, 1⟩ "s1").1 = true ∧
    get_session
        (delete_session_endpoint ⟨[⟨"s1", "t", 0, 0⟩], []⟩ ⟨[("s1", 0)], 50, 1⟩ "s1").2.1
        "s1" = none ∧
    (delete_session_endpoint ⟨[⟨"s1", "t", 0, 0⟩], []⟩ ⟨[("s1", 0)], 50, 1⟩ "s1").2.2 =
      ⟨[("s1", 0)], 50, 1⟩ ∧
    lookup_agent
        (delete_session_endpoint ⟨[⟨"s1", "t", 0, 0⟩], []⟩ ⟨[("s1", 0)], 50, 1⟩ "s1").2.2.entries
        "s1" = some 0 := by
  decide

/-- C8: for history `[user: a, assistant: b]` and new input `c`, the
constructed prompt decomposes as filler, then `a`, then filler, then `b`,
then filler, then `c`, then filler — so it contains `a`, `b`, `c` in that
relative order; and for empty history the prompt is the user text
verbatim. -/
theorem c8_context_prompt (sid : String) (a b c : String) (t1 t2 : Nat) :
    (∃ p1 p2 p3 p4 : String,
        build_context_prompt [⟨sid, "user", a, t1⟩, ⟨sid, "assistant", b, t2⟩] c =
          p1 ++ a ++ p2 ++ b ++ p3 ++ c ++ p4) ∧
    build_context_prompt [] c = c := by
  constructor
  · refine ⟨"以下是之前的对话历史：\n\n" ++ ("user" ++ ": "),
      "\n\n" ++ ("assistant" ++ ": "), "\n\n现在用户说：", "\n\n请基于上下文回复用户。", ?_⟩
    have h : build_context_prompt [⟨sid, "user", a, t1⟩, ⟨sid, "assistant", b, t2⟩] c =
        "以下是之前的对话历史：\n\n" ++
          ((("user" ++ ": " ++ a) ++ "\n\n") ++ ("assistant" ++ ": " ++ b)) ++
          "\n\n现在用户说：" ++ c ++ "\n\n请基于上下文回复用户。" := rfl
    rw [h]
    simp only [string_append_assoc]
  · rfl

/-- C9: when the service is initialized and the completion call raises
(whatever the error), `generate_title` returns `Except.ok` — it never
propagates the failure — with the deterministic fallback: the first 20
characters of the first user message plus an ellipsis marker when that
message exceeds 20 characters, the message itself unchanged otherwise;
the spec's own example evaluates to "Explain quantum comp...". -/
theorem c9_generate_title_fallback (e first_message : String) :
    generate_title true (Except.error e) first_message =
      Except.ok
        (if first_message.length > 20 then first_message.take 20 ++ "..."
         else first_message) ∧
    generate_title true (Except.error e) "Explain quantum computing in detail please" =
      Except.ok "Explain quantum comp..." := by
  exact ⟨rfl, rfl⟩

/-- C3: the Session-Agent Cache's `getOrCreate`.  For an existing key the
stored handle is returned unchanged, the entry becomes most-recently-used
(the last entry), and the set of entries is preserved; for a missing key a
fresh handle (never stored before) is created and inserted as
most-recently-used; an in-capacity cache stays in capacity; and folding
N + 1 pairwise-distinct session ids through an empty cache of capacity N
leaves exactly N resident entries whose ids are exactly the N most
recently used ones, in recency order. -/
theorem c3_lru_cache (c : AgentCache) (sid : String) (hfresh : AgentsFresh c) :
    (∀ a, lookup_agent c.entries sid = some a →
        (get_or_create_agent c sid).1 = a ∧
        (get_or_create_agent c sid).2.entries.getLast? = some (sid, a) ∧
        (get_or_create_agent c sid).2.entries.Perm c.entries) ∧
    (lookup_agent c.entries sid = none →
        (get_or_create_agent c sid).1 = c.next_agent ∧
        c.next_agent ∉ c.entries.map Prod.snd ∧
        (1 ≤ c.max_agents →
          (get_or_create_agent c sid).2.entries.getLast? = some (sid, c.next_agent))) ∧
    (c.entries.length ≤ c.max_agents →
        (get_or_create_agent c sid).2.entries.length ≤ c.max_agents) ∧
    (∀ (n : Nat) (sids : List String), sids.Nodup → sids.length = n + 1 →
        (run_get_or_create (empty_cache n) sids).entries.map Prod.fst = sids.drop 1 ∧
        (run_get_or_create (empty_cache n) sids).entries.length = n) := by
  refine ⟨?_, ?_, ?_, ?_⟩
  · intro a h
    have hg : get_or_create_agent c sid =
        (a, { c with entries := erase_key c.entries sid ++ [(sid, a)] }) := by
      simp only [get_or_create_agent, h]
    rw [hg]
    exact ⟨rfl, List.getLast?_concat _, erase_key_append_perm c.entries sid a h⟩
  · intro h
    have hg : get_or_create_agent c sid =
        (c.next_agent, { c with
            entries := if c.max_agents < (c.entries ++ [(sid, c.next_agent)]).length
              then (c.entries ++ [(sid, c.next_agent)]).tail
              else c.entries ++ [(sid, c.next_agent)],
            next_agent := c.next_agent + 1 }) := by
      simp only [get_or_create_agent, h]
    rw [hg]
    refine ⟨rfl, ?_, ?_⟩
    · intro hmem
      obtain ⟨p, hp, hpe⟩ := List.mem_map.mp hmem
      exact absurd (hpe ▸ hfresh p hp) (lt_irrefl _)
    · intro hcap
      dsimp only
      by_cases hc : c.max_agents < (c.entries ++ [(sid, c.next_agent)]).length
      · rw [if_pos hc]
        cases hce : c.entries with
        | nil =>
          rw [hce] at hc
          simp at hc
          omega
        | cons p es =>
          simp
      · rw [if_neg hc]
        exact List.getLast?_concat _
  · intro hlen
    cases h : lookup_agent c.entries sid with
    | some a =>
      simp only [get_or_create_agent, h]
      have hl := length_erase_key c.entries sid a h
      simp only [List.length_append, List.length_cons, List.length_nil]
      omega
    | none =>
      simp only [get_or_create_agent, h]
      by_cases hc : c.max_agents < (c.entries ++ [(sid, c.next_agent)]).length
      · rw [if_pos hc]
        simp only [List.length_tail, List.length_append, List.length_cons, List.length_nil]
        omega
      · rw [if_neg hc]
        simp only [List.length_append, List.length_cons, List.length_nil] at hc ⊢
        omega
  · intro n sids hnd hsl
    have hk := run_get_or_create_keys n sids hnd
    constructor
    · rw [hk, hsl]
      congr 1
      omega
    · have hlk := congrArg List.length hk
      simp only [List.length_map, List.length_drop] at hlk
      omega

/-- C3 witness: the fresh-handle invariant holds at a concrete one-entry
cache, and feeding the three distinct ids x, y, z through an empty cache
of capacity 2 leaves exactly the two most recent ids resident. -/
theorem c3_lru_cache_witness :
    AgentsFresh ⟨[("a", 0)], 2, 1⟩ ∧
    (run_get_or_create (empty_cache 2) ["x", "y", "z"]).entries.map Prod.fst = ["y", "z"] := by
  have h := c3_lru_cache ⟨[("a", 0)], 2, 1⟩ "a" (by unfold AgentsFresh; decide)
  refine ⟨by unfold AgentsFresh; decide, ?_⟩
  have h4 := (h.2.2.2 2 ["x", "y", "z"] (by decide) (by decide)).1
  rw [h4]
  decide

/-- C4: under the spec's invariant that a session's stored messages carry
strictly increasing timestamps, `recentMessages` returns exactly the final
(most recent) `limit`-segment of the session's messages in chronological
order: the result is the `drop` of all but the last `limit` entries, it is
sorted by non-decreasing timestamp, its last entry is the most recently
appended message of the session (whenever the limit is positive and the
session has messages), and appending a message via `add_message` makes
that message the most recently appended one. -/
theorem c4_recent_messages (st : DBState) (sid : String) (limit : Nat)
    (hmono : (st.messages.filter (fun m => m.session_id == sid)).Pairwise
        (fun a b => a.timestamp < b.timestamp)) :
    get_session_messages st sid limit =
      (st.messages.filter (fun m => m.session_id == sid)).drop
        ((st.messages.filter (fun m => m.session_id == sid)).length - limit) ∧
    (get_session_messages st sid limit).Pairwise (fun a b => a.timestamp ≤ b.timestamp) ∧
    (1 ≤ limit → st.messages.filter (fun m => m.session_id == sid) ≠ [] →
        (get_session_messages st sid limit).getLast? = last_appended st sid) ∧
    (∀ role content t_upd t_msg,
        last_appended (add_message st sid role content t_upd t_msg).2 sid =
          some (add_message st sid role content t_upd t_msg).1) := by
  have heq : get_session_messages st sid limit =
      (st.messages.filter (fun m => m.session_id == sid)).drop
        ((st.messages.filter (fun m => m.session_id == sid)).length - limit) := by
    rw [get_session_messages, sort_desc_eq_reverse _ hmono, reverse_take_reverse]
  refine ⟨heq, ?_, ?_, ?_⟩
  · rw [heq]
    exact (hmono.sublist (List.drop_sublist _ _)).imp (fun h => le_of_lt h)
  · intro hlim hne
    rw [heq, last_appended]
    apply getLast?_drop_of_lt
    have hpos : 0 < (st.messages.filter (fun m => m.session_id == sid)).length :=
      List.length_pos.mpr hne
    omega
  · intro role content t_upd t_msg
    simp [last_appended, add_message, List.filter_append]

/-- C4 witness: a store holding three "s1" messages (timestamps 0, 2, 5)
and an interleaved "s2" message satisfies the strict-timestamp hypothesis,
and `recentMessages("s1", 2)` returns the two newest "s1" messages oldest
first. -/
theorem c4_recent_messages_witness :
    ((⟨[], [⟨"s1", "user", "A", 0⟩, ⟨"s2", "user", "X", 1⟩, ⟨"s1", "assistant", "B", 2⟩,
        ⟨"s1", "user", "C", 5⟩]⟩ : DBState).messages.filter
        (fun m => m.session_id == "s1")).Pairwise (fun a b => a.timestamp < b.timestamp) ∧
    get_session_messages ⟨[], [⟨"s1", "user", "A", 0⟩, ⟨"s2", "user", "X", 1⟩,
        ⟨"s1", "assistant", "B", 2⟩, ⟨"s1", "user", "C", 5⟩]⟩ "s1" 2 =
      [⟨"s1", "assistant", "B", 2⟩, ⟨"s1", "user", "C", 5⟩] := by
  have h := c4_recent_messages ⟨[], [⟨"s1", "user", "A", 0⟩, ⟨"s2", "user", "X", 1⟩,
      ⟨"s1", "assistant", "B", 2⟩, ⟨"s1", "user", "C", 5⟩]⟩ "s1" 2 (by decide)
  refine ⟨by decide, ?_⟩
  rw [h.1]
  decide

/-- C5 counterexample: one `appendMessage` call on the concrete store
holding session "s1", with the two clock readings of the call being 5 (the
`updated_at` value, read while building the UPDATE) and 6 (the message
timestamp, read at flush).  The session's `updated_at` is then 5 while the
last appended message's timestamp is 6 — the claimed equality fails,
because the code takes two separate `datetime.utcnow()` readings. -/
theorem c5_updated_at_counterexample :
    (get_session (add_message ⟨[⟨"s1", "t", 0, 0⟩], []⟩ "s1" "user" "hi" 5 6).2 "s1").map
        SessionRow.updated_at = some 5 ∧
    (add_message ⟨[⟨"s1", "t", 0, 0⟩], []⟩ "s1" "user" "hi" 5 6).1.timestamp = 6 ∧
    ¬ ((get_session (add_message ⟨[⟨"s1", "t", 0, 0⟩], []⟩ "s1" "user" "hi" 5 6).2 "s1").map
        SessionRow.updated_at =
      some (add_message ⟨[⟨"s1", "t", 0, 0⟩], []⟩ "s1" "user" "hi" 5 6).1.timestamp) := by
  decide

/-- C5 (amended): `appendMessage` inserts the message and bumps the owning
session's `updated_at` in one atomic unit (both effects appear together in
the committed post-state), and after any non-empty sequence of calls on an
existing session the session's `updated_at` equals the *update-time clock
reading* of the last call — which is at most, but not necessarily equal
to, the last appended message's timestamp, since the two derive from
separate clock readings with the update's taken first — and it never
regresses when the clock readings are monotone. -/
theorem c5_amended_updated_at (st : DBState) (sid : String) (calls : List AppendCall)
    (c : AppendCall) (hs : (get_session st sid).isSome) (hlast : calls.getLast? = some c) :
    (get_session (run_add_messages st sid calls) sid).map SessionRow.updated_at =
      some c.t_upd ∧
    (last_appended (run_add_messages st sid calls) sid).map Msg.timestamp = some c.t_msg ∧
    ((∀ d ∈ calls, d.t_upd ≤ d.t_msg) → c.t_upd ≤ c.t_msg) ∧
    (∀ u0, (get_session st sid).map SessionRow.updated_at = some u0 →
        (∀ d ∈ calls, u0 ≤ d.t_upd) → u0 ≤ c.t_upd) := by
  have hne : calls ≠ [] := by
    intro he
    subst he
    simp at hlast
  have hsplit : calls.dropLast ++ [c] = calls := by
    have h1 := List.dropLast_append_getLast hne
    have h2 := List.getLast?_eq_getLast calls hne
    rw [hlast] at h2
    injection h2 with h3
    rw [← h3] at h1
    exact h1
  have hmem : c ∈ calls := by
    rw [← hsplit]
    simp
  refine ⟨?_, ?_, ?_, ?_⟩
  · rw [← hsplit, run_add_messages_snoc, get_session_add_message]
    have hsome := run_add_messages_isSome st sid calls.dropLast hs
    obtain ⟨s, hse⟩ := Option.isSome_iff_exists.mp hsome
    rw [hse]
    rfl
  · rw [last_appended, ← hsplit, run_add_messages_messages, List.filter_append]
    have hfk : (((calls.dropLast ++ [c]).map
        (fun d => (⟨sid, d.role, d.content, d.t_msg⟩ : Msg))).filter
        (fun m => m.session_id == sid)) =
        (calls.dropLast ++ [c]).map (fun d => (⟨sid, d.role, d.content, d.t_msg⟩ : Msg)) := by
      rw [List.filter_eq_self]
      intro m hm
      obtain ⟨d, _, rfl⟩ := List.mem_map.mp hm
      simp
    rw [hfk, List.map_append]
    simp only [List.map_cons, List.map_nil, ← List.append_assoc, List.getLast?_concat]
    rfl
  · intro hclock
    exact hclock c hmem
  · intro u0 h0 hmon
    exact hmon c hmem

/-- C5 witness: two appends on session "s1" with monotone clock readings
(1,2) and (3,4); the hypotheses hold and the final `updated_at` is the
last call's update-time reading, 3. -/
theorem c5_amended_updated_at_witness :
    (get_session ⟨[⟨"s1", "t", 0, 0⟩], []⟩ "s1").isSome ∧
    ([⟨"user", "hi", 1, 2⟩, ⟨"assistant", "ok", 3, 4⟩] : List AppendCall).getLast? =
      some ⟨"assistant", "ok", 3, 4⟩ ∧
    (get_session (run_add_messages ⟨[⟨"s1", "t", 0, 0⟩], []⟩ "s1"
        [⟨"user", "hi", 1, 2⟩, ⟨"assistant", "ok", 3, 4⟩]) "s1").map SessionRow.updated_at =
      some 3 := by
  have h := c5_amended_updated_at ⟨[⟨"s1", "t", 0, 0⟩], []⟩ "s1"
      [⟨"user", "hi", 1, 2⟩, ⟨"assistant", "ok", 3, 4⟩] ⟨"assistant", "ok", 3, 4⟩
      (by decide) (by decide)
  exact ⟨by decide, by decide, h.1⟩

/-- C10: `remove_agent` on a key absent from the cache returns the cache
unchanged (and raises nothing — it is a total function); on a present key
it removes exactly that entry: the remaining entries are precisely the
original ones with the other keys, in their original relative order, one
entry fewer, with capacity and the construction counter untouched. -/
theorem c10_remove_agent (c : AgentCache) (sid : String) (hnd : KeysNodup c) :
    (lookup_agent c.entries sid = none → remove_agent c sid = c) ∧
    (∀ a, lookup_agent c.entries sid = some a →
        (remove_agent c sid).entries = c.entries.filter (fun p => p.1 != sid) ∧
        (remove_agent c sid).entries.length + 1 = c.entries.length ∧
        (remove_agent c sid).max_agents = c.max_agents ∧
        (remove_agent c sid).next_agent = c.next_agent) := by
  constructor
  · intro h
    rw [remove_agent, h]
    rfl
  · intro a h
    have ht : (some a).isSome = true := rfl
    rw [remove_agent, h, if_pos ht]
    exact ⟨erase_key_eq_filter c.entries sid hnd, length_erase_key c.entries sid a h,
      rfl, rfl⟩

/-- C10 witness: on a concrete two-entry cache with distinct keys, removing
"a" keeps exactly the other entry. -/
theorem c10_remove_agent_witness :
    KeysNodup ⟨[("a", 0), ("b", 1)], 50, 2⟩ ∧
    (remove_agent ⟨[("a", 0), ("b", 1)], 50, 2⟩ "a").entries = [("b", 1)] := by
  have h := c10_remove_agent ⟨[("a", 0), ("b", 1)], 50, 2⟩ "a" (by unfold KeysNodup; decide)
  refine ⟨by unfold KeysNodup; decide, ?_⟩
  rw [(h.2 0 (by decide)).1]
  decide
